import Mathlib

/-!
# dytty: layered path resolution for ytt

A shallow embedding of `dytty.go` (package `main` of `blakebarnett/dytty`).

* Go slices are lists; where the source tests a slice against `nil`
  (the result of `filepath.Glob`) the slice is an `Option (List String)`
  with `none` standing for the nil slice.
* A Go `error` value is a `GoError`: its message and whether
  `errors.Is(err, os.ErrNotExist)` holds for it.
* `panic` is the `error` branch of the result of an `Exec` computation.
* The standard library and the ytt engine (`filepath.Glob`, `text/template`,
  `yttfiles.NewSortedFilesFromPaths`, `Options.RunWithFiles`,
  `DocSet.AsBytes`, `yaml.Unmarshal`) are the fields of a `World`.
* Every call to `filepath.Glob` and to the ytt engine is recorded in the
  event log of the computation, in program order.
* Logging (`logger.Debug()`, `logger.Info()`) and writes to standard output
  change nothing that is modelled and are left out.
-/

namespace Dytty

/-! ## Data model (dytty.go, lines 59-139) -/

/-- A Go `error` value. -/
structure GoError where
  /-- The text of `err.Error()`. -/
  msg : String
  /-- Whether `errors.Is(err, os.ErrNotExist)` holds. -/
  notExist : Bool
deriving DecidableEq, Repr

/-- The type `EnvPaths`. -/
structure EnvPaths where
  Required : List String := []
  RequiredValues : List String := []
  Optional : List String := []
deriving DecidableEq, Repr

/-- The type `Environment`. -/
structure Environment where
  Name : String := ""
  Paths : EnvPaths := {}
deriving DecidableEq, Repr

/-- The type `Paths`. -/
structure Paths where
  Required : List String := []
  RequiredValues : List String := []
  Optional : List String := []
  Templates : List String := []
deriving DecidableEq, Repr

/-- The type `AppImage`. The `default:"..."` struct tags of the source are
metadata only: a Go struct literal leaves these fields at the empty string. -/
structure AppImage where
  Name : String := ""
  Tag : String := ""
  Repository : String := ""
  Registry : String := ""
deriving DecidableEq, Repr

/-- The type `AppsPaths`. -/
structure AppsPaths where
  Required : List String := []
  RequiredValues : List String := []
  Optional : List String := []
  Templates : List String := []
deriving DecidableEq, Repr

/-- The type `BaseApp`. -/
structure BaseApp where
  Name : String := ""
  Env : Environment := {}
  Kind : String := ""
  Paths : Paths := {}
deriving DecidableEq, Repr

/-- The type `App`. The embedded `BaseApp` is the field `Base`; the fields
`Kind` and `Paths` of `App` shadow those of the embedded struct, so that
`app.Paths` in the source is `App.Paths` and `app.Env` is `app.Base.Env`. -/
structure App where
  Base : BaseApp := {}
  Kind : String := ""
  Paths : AppsPaths := {}
  Image : AppImage := {}
deriving DecidableEq, Repr

/-- The anonymous struct `CLI.Kinds.Apps`. -/
structure KindsApps where
  Paths : AppsPaths := {}
deriving DecidableEq, Repr

/-- The anonymous struct `CLI.Kinds`. -/
structure Kinds where
  Apps : KindsApps := {}
deriving DecidableEq, Repr

/-- The type `CLI`, with the fields the resolution reads. The map
`Environments` is an association list. -/
structure CLI where
  Kinds : Kinds := {}
  Environments : List (String × Environment) := []
  BasePath : String := ""
  ImageTag : String := ""
deriving DecidableEq, Repr

/-- The map index expression `cli.Environments[name]`: the first entry
stored under `name`, the zero `Environment` when the key is absent. -/
def CLI.EnvironmentsAt (cli : CLI) (name : String) : Environment :=
  match cli.Environments.find? (fun kv => kv.1 == name) with
  | some kv => kv.2
  | none => {}

/-- The type `RenderCommand`. -/
structure RenderCommand where
  Kind : String
  App : String
  Env : String
deriving DecidableEq, Repr

/-- The type `ValuesCommand`. -/
structure ValuesCommand where
  Kind : String
  App : String
  Env : String
deriving DecidableEq, Repr

/-- The type `FilesCommand`. -/
structure FilesCommand where
  Kind : String
  App : String
  Env : String
deriving DecidableEq, Repr

/-! ## The outside world -/

/-- The two results of `filepath.Glob`. -/
structure GlobResult where
  /-- The slice `matches`; `none` is the nil slice. -/
  matched : Option (List String)
  /-- The error; `none` is the nil error. -/
  err : Option GoError
deriving DecidableEq, Repr

/-- The files behind a glob result: what `append(files, matches...)` adds. -/
def GlobResult.files (r : GlobResult) : List String :=
  r.matched.getD []

/-- The fields of `yttcmd.Options` that `ytt` sets. -/
structure YttOptions where
  InspectFiles : Bool := false
  DataValuesInspect : Bool := false
  KVsFromStrings : List String := []
deriving DecidableEq, Repr

/-- The constructor `yttcmd.NewOptions()`, which returns `&Options{}`. -/
def NewOptions : YttOptions := {}

/-- A template returned by `template.New(name).Parse(text)`. -/
structure ParsedTemplate where
  name : String
  text : String
deriving DecidableEq, Repr

/-- Byte strings, as lists of byte values. -/
abbrev Bytes := List Nat

/-- The library functions the program calls. -/
structure World where
  /-- The function `filepath.Glob`. -/
  Glob : String → GlobResult
  /-- The call `template.New(name).Parse(text)`. -/
  Parse : String → String → Except GoError ParsedTemplate
  /-- The call `t.Execute(&buf, app)`, giving `buf.String()`. -/
  Execute : ParsedTemplate → App → Except GoError String
  /-- The function `yttfiles.NewSortedFilesFromPaths`; a loaded file is
  named by its path. -/
  NewSortedFilesFromPaths : List String → Except GoError (List String)
  /-- The method `opts.RunWithFiles(input, ui)`: `output.Err` or
  `output.DocSet`. -/
  RunWithFiles : YttOptions → List String → Except GoError Bytes
  /-- The method `output.DocSet.AsBytes()`. -/
  AsBytes : Bytes → Except GoError Bytes
  /-- The call `yaml.Unmarshal(data, &app.Paths)`. -/
  UnmarshalPaths : Bytes → AppsPaths → Except GoError AppsPaths
  /-- The call `yaml.Unmarshal(data, &results)` of `FilesCommand.Run`. -/
  UnmarshalStrings : Bytes → Except GoError (List String)
  /-- The call `yaml.Unmarshal(data, &results)` of `ParseValues`. -/
  UnmarshalValues : Bytes → Except GoError (List (String × String))

/-- What the documentation of `filepath.Glob` promises: the slice of matches
is nil when nothing matches (never an empty non-nil slice), and the only
error is `ErrBadPattern`, which is not `os.ErrNotExist`. -/
def GlobContract (w : World) : Prop :=
  ∀ p, (w.Glob p).matched ≠ some [] ∧ ∀ e, (w.Glob p).err = some e → e.notExist = false

/-! ## Computations with an event log and panics -/

/-- A call that leaves the program. -/
inductive Event where
  /-- A call `filepath.Glob(pattern)`. -/
  | glob (pattern : String)
  /-- A call `addFiles(opts, paths...)`, which loads the files for ytt. -/
  | addFiles (paths : List String)
  /-- A call `opts.RunWithFiles(input, ui)` on the loaded files. -/
  | runWithFiles (opts : YttOptions) (files : List String)
deriving DecidableEq, Repr

/-- A computation: the events it emitted, in order, and either its value or
the value it panicked with. -/
structure Exec (α : Type) where
  log : List Event
  res : Except GoError α

/-- A computation that returns at once. -/
def Exec.ret {α : Type} (a : α) : Exec α := ⟨[], .ok a⟩

/-- Sequencing: a panic stops the program and keeps the events so far. -/
def Exec.seq {α β : Type} (x : Exec α) (f : α → Exec β) : Exec β :=
  match x.res with
  | .ok a => ⟨x.log ++ (f a).log, (f a).res⟩
  | .error e => ⟨x.log, .error e⟩

instance : Monad Exec where
  pure := Exec.ret
  bind := Exec.seq

/-- The statement `panic(err)`. -/
def goPanic {α : Type} (e : GoError) : Exec α := ⟨[], .error e⟩

/-- One recorded event. -/
def emit (ev : Event) : Exec Unit := ⟨[ev], .ok ()⟩

/-- A library call whose failure makes the caller panic. -/
def orPanic {α : Type} (r : Except GoError α) : Exec α := ⟨[], r⟩

/-- The call `fmt.Errorf(format, s)` for a format that ends in `%s` and has
no `%w`: a fresh error, which wraps nothing. -/
def Errorf (pre : String) (s : String) : GoError := ⟨pre ++ s, false⟩

/-! ## NormalizeEnvName (lines 181-196) -/

/-- The function `NormalizeEnvName`. -/
def NormalizeEnvName (e : String) : String × Option GoError :=
  if e = "dev" ∨ e = "development" then ("development", none)
  else if e = "int" ∨ e = "integration" then ("integration", none)
  else if e = "prd" ∨ e = "prod" ∨ e = "production" then ("production", none)
  else ("", some (Errorf "invalid environment name: " e))

/-! ## ValidatePaths (lines 198-221) -/

/-- The body of the `for _, path := range paths` loop of `ValidatePaths`,
with `files` the slice built so far. -/
def ValidatePaths.loop (w : World) (required : Bool) : List String → List String → Exec (List String)
  | [], files => pure files
  | path :: rest, files =>
    if path = "" then ValidatePaths.loop w required rest files
    else do
      emit (Event.glob path)
      let r := w.Glob path
      match r.err with
      | some err =>
        if err.notExist then
          (if required then goPanic err else pure ())
        else if r.matched = none then
          (if required then goPanic (Errorf "no files found for required path: " path) else pure ())
        else pure ()
      | none =>
        if r.matched = none then
          (if required then goPanic (Errorf "no files found for required path: " path) else pure ())
        else pure ()
      ValidatePaths.loop w required rest (files ++ r.files)

/-- The function `ValidatePaths`. -/
def ValidatePaths (w : World) (required : Bool) (paths : List String) : Exec (List String) :=
  ValidatePaths.loop w required paths []

/-! ## renderPathTemplates (lines 223-243) -/

/-- The body of the `for _, ts := range templates` loop of
`renderPathTemplates`, with `results` the slice built so far. -/
def App.renderPathTemplates.loop (w : World) (app : App) : List String → List String → Exec (List String)
  | [], results => pure results
  | ts :: rest, results => do
    let t ← orPanic (w.Parse "app" ts)
    let buf ← orPanic (w.Execute t app)
    App.renderPathTemplates.loop w app rest (results ++ [buf])

/-- The method `(*App).renderPathTemplates`. -/
def App.renderPathTemplates (w : World) (app : App) (templates : List String) : Exec (List String) :=
  App.renderPathTemplates.loop w app templates []

/-! ## SetPaths (lines 245-255) -/

/-- The method `(*App).SetPaths`. Each argument `app.renderPathTemplates(...)`
is evaluated against the application as the earlier assignments left it. -/
def App.SetPaths (w : World) (app : App) (cli : CLI) : Exec App := do
  let t ← app.renderPathTemplates w cli.Kinds.Apps.Paths.Required
  let v ← ValidatePaths w true t
  let app : App := { app with Paths := { app.Paths with Required := v } }
  let t ← app.renderPathTemplates w cli.Kinds.Apps.Paths.RequiredValues
  let v ← ValidatePaths w true t
  let app : App := { app with Paths := { app.Paths with RequiredValues := v } }
  let t ← app.renderPathTemplates w cli.Kinds.Apps.Paths.Optional
  let v ← ValidatePaths w false t
  let app : App := { app with Paths := { app.Paths with Optional := v } }
  let t ← app.renderPathTemplates w (cli.EnvironmentsAt app.Base.Env.Name).Paths.Required
  let v ← ValidatePaths w true t
  let app : App :=
    { app with Base := { app.Base with Env := { app.Base.Env with
        Paths := { app.Base.Env.Paths with Required := v } } } }
  let t ← app.renderPathTemplates w (cli.EnvironmentsAt app.Base.Env.Name).Paths.RequiredValues
  let v ← ValidatePaths w true t
  let app : App :=
    { app with Base := { app.Base with Env := { app.Base.Env with
        Paths := { app.Base.Env.Paths with RequiredValues := v } } } }
  pure app

/-! ## NewEnv and NewApp (lines 141-179) -/

/-- The function `NewEnv`. It reads nothing of `cli` but the logger. -/
def NewEnv (name : String) (_cli : CLI) : Exec Environment :=
  let env : Environment := {}
  match NormalizeEnvName name with
  | (_, some err) => goPanic err
  | (nn, none) => pure { env with Name := nn }

/-- The function `NewApp`. The composite literal calls `NewEnv` first; the
closing `yaml.NewEncoder(buf).Encode(app)` only feeds the debug log. -/
def NewApp (w : World) (kind : String) (name : String) (env : String) (cli : CLI) : Exec App := do
  let e ← NewEnv env cli
  let app : App := { Base := { Name := name, Env := e, Kind := kind } }
  let app : App :=
    if cli.ImageTag ≠ "" then { app with Image := { app.Image with Tag := cli.ImageTag } } else app
  let app ← app.SetPaths w cli
  pure app

/-! ## ytt and addFiles (lines 355-402) -/

/-- The function `addFiles`. -/
def addFiles (w : World) (_opts : YttOptions) (yttpaths : List String) :
    Exec (Except GoError (List String)) := do
  emit (Event.addFiles yttpaths)
  pure (w.NewSortedFilesFromPaths yttpaths)

/-- The local variable `paths` of `ytt` after its last `append`
(lines 360-366). -/
def ytt.paths (app : App) (cli : CLI) : List String :=
  let paths := [cli.BasePath ++ "/global"]
  let paths := paths ++ app.Base.Env.Paths.RequiredValues
  let paths := paths ++ app.Paths.RequiredValues
  let paths := paths ++ app.Base.Env.Paths.Required
  let paths := paths ++ app.Paths.Required
  let paths := paths ++ app.Paths.Optional
  let paths := paths ++ app.Paths.Templates
  paths

/-- The function `ytt`. Its two results are one `Except` value: the bytes
when the error is nil, the error otherwise. -/
def ytt (w : World) (app : App) (inspectValues : Bool) (inspectFiles : Bool) (cli : CLI) :
    Exec (Except GoError Bytes) := do
  let opts := NewOptions
  let opts := { opts with InspectFiles := inspectFiles }
  let opts := { opts with DataValuesInspect := inspectValues }
  let paths := ytt.paths app cli
  match (← addFiles w opts paths) with
  | .error err => pure (.error err)
  | .ok files =>
    let tag := "app.image.tag=" ++ app.Image.Tag
    let opts := { opts with KVsFromStrings := opts.KVsFromStrings ++ [tag] }
    emit (Event.runWithFiles opts files)
    match w.RunWithFiles opts files with
    | .error err => pure (.error err)
    | .ok docSet =>
      match w.AsBytes docSet with
      | .error err => pure (.error err)
      | .ok bs => pure (.ok bs)

/-! ## The commands (lines 257-353) -/

/-- The method `(*FilesCommand).Run`; the result is the returned `errors.E`,
`none` for nil. -/
def FilesCommand.Run (w : World) (c : FilesCommand) (cli : CLI) : Exec (Option GoError) := do
  let app ← NewApp w c.Kind c.App c.Env cli
  match (← ytt w app false true cli) with
  | .error err => goPanic err
  | .ok data =>
    match w.UnmarshalStrings data with
    | .error err => pure (some (Errorf "error parsing yaml: " err.msg))
    | .ok _results => pure none

/-- The function `ParseValues`. The call `log.Fatalf`, which ends the process,
is a panic here. -/
def ParseValues (w : World) (app : App) (cli : CLI) :
    Exec (Except GoError (List (String × String))) := do
  match (← ytt w app true false cli) with
  | .error err => pure (.error (Errorf "ParseValues() error: " err.msg))
  | .ok data =>
    match w.UnmarshalValues data with
    | .error err => goPanic (Errorf "ParseValues(): " err.msg)
    | .ok results => pure (.ok results)

/-- The method `(*ValuesCommand).Run`. -/
def ValuesCommand.Run (w : World) (c : ValuesCommand) (cli : CLI) : Exec (Option GoError) := do
  let app ← NewApp w c.Kind c.App c.Env cli
  match (← ParseValues w app cli) with
  | .error err => goPanic err
  | .ok _results => pure none

/-- The first part of `(*RenderCommand).Run` (lines 314-334): the application
is built, the data values are rendered and unmarshalled into `app.Paths`.
The result is the application as the rest of `Run` finds it. -/
def RenderCommand.valuesPass (w : World) (c : RenderCommand) (cli : CLI) : Exec Dytty.App := do
  let app ← NewApp w c.Kind c.App c.Env cli
  match (← ytt w app true false cli) with
  | .error err => goPanic err
  | .ok data =>
    let paths ← orPanic (w.UnmarshalPaths data app.Paths)
    pure { app with Paths := paths }

/-- The second part of `(*RenderCommand).Run` (lines 336-352): the declared
templates are validated and the manifests are rendered. -/
def RenderCommand.renderPass (w : World) (app : Dytty.App) (cli : CLI) : Exec (Option GoError) := do
  let templates := app.Paths.Templates.map (fun t => cli.BasePath ++ "/templates/" ++ t)
  let v ← ValidatePaths w true templates
  let app : Dytty.App := { app with Paths := { app.Paths with Templates := v } }
  match (← ytt w app false false cli) with
  | .error err => goPanic err
  | .ok _results => pure none

/-- The method `(*RenderCommand).Run`. -/
def RenderCommand.Run (w : World) (c : RenderCommand) (cli : CLI) : Exec (Option GoError) := do
  let app ← RenderCommand.valuesPass w c cli
  RenderCommand.renderPass w app cli

/-! ## Auxiliary definitions for the statements -/

/-- A turn of the loop of `ValidatePaths` that does not panic: the glob is
recorded, its matches are appended, and the loop goes on. -/
def ValidatePaths.next (w : World) (required : Bool) (path : String) (rest files : List String) :
    Exec (List String) :=
  ⟨Event.glob path :: (ValidatePaths.loop w required rest (files ++ (w.Glob path).files)).log,
    (ValidatePaths.loop w required rest (files ++ (w.Glob path).files)).res⟩

/-- The matches of the non-empty patterns of a list, pattern after pattern. -/
def globAll (w : World) (paths : List String) : List String :=
  (paths.filter (fun p => p ≠ "")).flatMap (fun p => (w.Glob p).files)

/-- The first non-empty pattern of a list that matches no file. -/
def firstUnmatched (w : World) (paths : List String) : Option String :=
  paths.find? (fun p => decide (p ≠ "") && (w.Glob p).files.isEmpty)

/-- A small world for the examples: the directory holds `a.yaml` and
`b.yaml`, a pattern matches the file of its own name and `*.yaml` matches both;
a path template is rendered to its own text; the engine returns no bytes and
the YAML decoders leave their target as it is. -/
def demoWorld : World where
  Glob := fun p =>
    if p = "a.yaml" then ⟨some ["a.yaml"], none⟩
    else if p = "b.yaml" then ⟨some ["b.yaml"], none⟩
    else if p = "*.yaml" then ⟨some ["a.yaml", "b.yaml"], none⟩
    else if p = "[" then ⟨none, some ⟨"syntax error in pattern", false⟩⟩
    else ⟨none, none⟩
  Parse := fun name text => .ok ⟨name, text⟩
  Execute := fun t _ => .ok t.text
  NewSortedFilesFromPaths := fun paths => .ok paths
  RunWithFiles := fun _ _ => .ok []
  AsBytes := fun d => .ok d
  UnmarshalPaths := fun _ paths => .ok paths
  UnmarshalStrings := fun _ => .ok []
  UnmarshalValues := fun _ => .ok []

/-- A configuration for the examples: the application declares one required
values file and one optional pattern, the development environment one required
values file, and no `required` pattern is declared at all; the command line
sets the image tag. -/
def demoCLI : CLI where
  Kinds := { Apps := { Paths := { RequiredValues := ["a.yaml"], Optional := ["missing.yaml"] } } }
  Environments := [("development", { Paths := { RequiredValues := ["b.yaml"] } })]
  BasePath := "base"
  ImageTag := "1.2.3"

/-- The command `render apps example dev`. -/
def demoRender : RenderCommand := ⟨"apps", "example", "dev"⟩

/-- The application that `NewApp` builds for `demoRender` under `demoCLI` in the
demo world. -/
def demoApp : App where
  Base := { Name := "example", Kind := "apps",
            Env := { Name := "development", Paths := { RequiredValues := ["b.yaml"] } } }
  Paths := { RequiredValues := ["a.yaml"] }
  Image := { Tag := "1.2.3" }

/-- The configuration of the repository's tests, `CLI{BasePath: "test-data"}`. -/
def testCLI : CLI := { BasePath := "test-data" }

/-- A configuration whose optional pattern matches a file of the demo world. -/
def optionalCLI : CLI where
  Kinds := { Apps := { Paths := { RequiredValues := ["a.yaml"], Optional := ["b.yaml"] } } }
  BasePath := "base"

/-- The application that `NewApp` builds for `apps example dev` under
`optionalCLI` in the demo world. -/
def optionalApp : App where
  Base := { Name := "example", Kind := "apps", Env := { Name := "development" } }
  Paths := { RequiredValues := ["a.yaml"], Optional := ["b.yaml"] }

/-- The command `values apps example dev`. -/
def demoValues : ValuesCommand := ⟨"apps", "example", "dev"⟩

/-- The demo world with a stricter template parser, which rejects the text
`{{`, and with data values that declare the template `deploy.yaml`: the YAML
decoder stores it in the `Templates` field of `app.Paths`. No file of that name
exists under `base/templates`. -/
def strictWorld : World :=
  { demoWorld with
    Parse := fun name text =>
      if text = "\x7b\x7b" then .error ⟨"template: app:1: unclosed action", false⟩
      else .ok ⟨name, text⟩
    UnmarshalPaths := fun _ paths => .ok { paths with Templates := ["deploy.yaml"] } }

/-- A configuration whose required values pattern matches no file. -/
def missingCLI : CLI where
  Kinds := { Apps := { Paths := { RequiredValues := ["missing.yaml"] } } }
  BasePath := "base"

/-- A configuration whose required values pattern is a malformed path template. -/
def brokenCLI : CLI where
  Kinds := { Apps := { Paths := { RequiredValues := ["\x7b\x7b"] } } }
  BasePath := "base"

/-! # Theorems -/

/-! ## Lemmas on computations -/

theorem Exec.bind_eq {α β : Type} (x : Exec α) (f : α → Exec β) : x >>= f = Exec.seq x f := rfl

theorem Exec.pure_eq {α : Type} (a : α) : (pure a : Exec α) = Exec.ret a := rfl

theorem Exec.seq_of_ok {α β : Type} (x : Exec α) (f : α → Exec β) (a : α) (h : x.res = .ok a) :
    Exec.seq x f = ⟨x.log ++ (f a).log, (f a).res⟩ := by
  simp [Exec.seq, h]

theorem Exec.seq_of_error {α β : Type} (x : Exec α) (f : α → Exec β) (e : GoError)
    (h : x.res = .error e) : Exec.seq x f = ⟨x.log, .error e⟩ := by
  simp [Exec.seq, h]

theorem Exec.seq_res_ok {α β : Type} (x : Exec α) (f : α → Exec β) (b : β)
    (h : (Exec.seq x f).res = .ok b) : ∃ a, x.res = .ok a ∧ (f a).res = .ok b := by
  cases hx : x.res with
  | error e => rw [Exec.seq_of_error x f e hx] at h; cases h
  | ok a => rw [Exec.seq_of_ok x f a hx] at h; exact ⟨a, rfl, h⟩

/-! ## The file list of ytt -/

/-- The events of a call of `ytt`: the files are loaded from `ytt.paths`, and
when that succeeds the engine runs once, on the loaded files, with the two
inspection flags and the image tag as the only key/value overlay. -/
theorem ytt_log (w : World) (app : App) (inspectValues inspectFiles : Bool) (cli : CLI) :
    (ytt w app inspectValues inspectFiles cli).log =
      Event.addFiles (ytt.paths app cli) ::
        (match w.NewSortedFilesFromPaths (ytt.paths app cli) with
         | .error _ => []
         | .ok files =>
           [Event.runWithFiles
              { InspectFiles := inspectFiles, DataValuesInspect := inspectValues,
                KVsFromStrings := ["app.image.tag=" ++ app.Image.Tag] } files]) := by
  simp only [ytt, addFiles, NewOptions, Exec.bind_eq, Exec.pure_eq, Exec.seq, Exec.ret, emit]
  cases w.NewSortedFilesFromPaths (ytt.paths app cli) with
  | error e => simp
  | ok files =>
    simp only [List.nil_append, List.append_nil]
    cases w.RunWithFiles _ files with
    | error e => simp
    | ok d => cases hb : w.AsBytes d <;> simp [hb]

/-- C1: for every application and every base path, the file list that `ytt`
assembles is the concatenation, in this order, of the global directory, the
environment's required values, the application's required values, the
environment's required files, the application's required files, the
application's optional files and its templates; it is the list handed to the
file loader, first of all the calls `ytt` makes. -/
theorem ytt_paths_order (w : World) (app : App) (inspectValues inspectFiles : Bool) (cli : CLI) :
    ytt.paths app cli =
        List.flatten [[cli.BasePath ++ "/global"], app.Base.Env.Paths.RequiredValues,
          app.Paths.RequiredValues, app.Base.Env.Paths.Required, app.Paths.Required,
          app.Paths.Optional, app.Paths.Templates] ∧
      (ytt.paths app cli).length =
        1 + app.Base.Env.Paths.RequiredValues.length + app.Paths.RequiredValues.length +
          app.Base.Env.Paths.Required.length + app.Paths.Required.length +
          app.Paths.Optional.length + app.Paths.Templates.length ∧
      (ytt w app inspectValues inspectFiles cli).log.head? =
        some (Event.addFiles
          (List.flatten [[cli.BasePath ++ "/global"], app.Base.Env.Paths.RequiredValues,
            app.Paths.RequiredValues, app.Base.Env.Paths.Required, app.Paths.Required,
            app.Paths.Optional, app.Paths.Templates])) := by
  have h : ytt.paths app cli =
      List.flatten [[cli.BasePath ++ "/global"], app.Base.Env.Paths.RequiredValues,
        app.Paths.RequiredValues, app.Base.Env.Paths.Required, app.Paths.Required,
        app.Paths.Optional, app.Paths.Templates] := by
    simp [ytt.paths, List.flatten]
  refine ⟨h, ?_, ?_⟩
  · simp [ytt.paths]; omega
  · rw [ytt_log, h]; rfl

/-! ## Environment names -/

/-- C2: each accepted alias is mapped to its canonical name with a nil
error. -/
theorem NormalizeEnvName_aliases :
    NormalizeEnvName "dev" = ("development", none) ∧
    NormalizeEnvName "development" = ("development", none) ∧
    NormalizeEnvName "int" = ("integration", none) ∧
    NormalizeEnvName "integration" = ("integration", none) ∧
    NormalizeEnvName "prd" = ("production", none) ∧
    NormalizeEnvName "prod" = ("production", none) ∧
    NormalizeEnvName "production" = ("production", none) := by
  refine ⟨?_, ?_, ?_, ?_, ?_, ?_, ?_⟩ <;> decide

/-- C3: a string that is not one of the seven aliases gives the empty name
and the error `invalid environment name: ` followed by that string, so the
message contains it; the error is nil exactly for the seven aliases. -/
theorem NormalizeEnvName_rejects (e : String) :
    (e ∉ ["dev", "development", "int", "integration", "prd", "prod", "production"] →
      NormalizeEnvName e = ("", some ⟨"invalid environment name: " ++ e, false⟩) ∧
      ∃ err pre post, (NormalizeEnvName e).2 = some err ∧ err.msg = pre ++ e ++ post) ∧
    ((NormalizeEnvName e).2 = none ↔
      e ∈ ["dev", "development", "int", "integration", "prd", "prod", "production"]) := by
  constructor
  · intro h
    simp only [List.mem_cons, List.mem_singleton, List.not_mem_nil, or_false, not_or] at h
    obtain ⟨h1, h2, h3, h4, h5, h6, h7⟩ := h
    have hn : NormalizeEnvName e = ("", some ⟨"invalid environment name: " ++ e, false⟩) := by
      simp [NormalizeEnvName, h1, h2, h3, h4, h5, h6, h7, Errorf]
    exact ⟨hn, ⟨"invalid environment name: " ++ e, false⟩, "invalid environment name: ", "",
      by rw [hn], by simp⟩
  · simp only [List.mem_cons, List.mem_singleton, List.not_mem_nil, or_false]
    unfold NormalizeEnvName
    split_ifs with h1 h2 h3
    · simp; tauto
    · simp; tauto
    · simp; tauto
    · simp; tauto

/-- Witness for C3: the case variant `PROD`, the empty string and `invalid`
are rejected. -/
theorem NormalizeEnvName_rejects_witness :
    NormalizeEnvName "PROD" = ("", some ⟨"invalid environment name: PROD", false⟩) ∧
    NormalizeEnvName "" = ("", some ⟨"invalid environment name: ", false⟩) ∧
    NormalizeEnvName "invalid" = ("", some ⟨"invalid environment name: invalid", false⟩) :=
  ⟨((NormalizeEnvName_rejects "PROD").1 (by decide)).1,
   ((NormalizeEnvName_rejects "").1 (by decide)).1,
   ((NormalizeEnvName_rejects "invalid").1 (by decide)).1⟩

/-! ## ValidatePaths: one turn of the loop -/

theorem ValidatePaths.loop_nil (w : World) (required : Bool) (files : List String) :
    ValidatePaths.loop w required [] files = ⟨[], .ok files⟩ := rfl

theorem ValidatePaths.loop_skip (w : World) (required : Bool) (rest files : List String) :
    ValidatePaths.loop w required ("" :: rest) files = ValidatePaths.loop w required rest files := by
  simp [ValidatePaths.loop]

theorem ValidatePaths.loop_optional (w : World) (path : String) (rest files : List String)
    (hp : path ≠ "") :
    ValidatePaths.loop w false (path :: rest) files = ValidatePaths.next w false path rest files := by
  simp only [ValidatePaths.loop, hp, if_false, ValidatePaths.next, Exec.bind_eq, Exec.pure_eq]
  cases he : (w.Glob path).err with
  | none => by_cases hm : (w.Glob path).matched = none <;> simp [Exec.seq, emit, Exec.ret, hm]
  | some err =>
    by_cases hn : err.notExist = true <;> by_cases hm : (w.Glob path).matched = none <;>
      simp [Exec.seq, emit, Exec.ret, hm, hn]

theorem ValidatePaths.loop_required_found (w : World) (path : String) (rest files : List String)
    (hp : path ≠ "") (he : ∀ e, (w.Glob path).err = some e → e.notExist = false)
    (hm : (w.Glob path).matched ≠ none) :
    ValidatePaths.loop w true (path :: rest) files = ValidatePaths.next w true path rest files := by
  simp only [ValidatePaths.loop, hp, if_false, ValidatePaths.next, Exec.bind_eq, Exec.pure_eq]
  cases herr : (w.Glob path).err with
  | none => simp [Exec.seq, emit, Exec.ret, hm]
  | some err => simp [Exec.seq, emit, Exec.ret, hm, he err herr]

theorem ValidatePaths.loop_required_missing (w : World) (path : String) (rest files : List String)
    (hp : path ≠ "") (he : ∀ e, (w.Glob path).err = some e → e.notExist = false)
    (hm : (w.Glob path).matched = none) :
    ValidatePaths.loop w true (path :: rest) files =
      ⟨[Event.glob path], .error (Errorf "no files found for required path: " path)⟩ := by
  simp only [ValidatePaths.loop, hp, if_false, Exec.bind_eq, Exec.pure_eq]
  cases herr : (w.Glob path).err with
  | none => simp [Exec.seq, emit, goPanic, hm]
  | some err => simp [Exec.seq, emit, goPanic, hm, he err herr]

theorem ValidatePaths.loop_required_notExist (w : World) (path : String) (rest files : List String)
    (hp : path ≠ "") (err : GoError) (he : (w.Glob path).err = some err)
    (hn : err.notExist = true) :
    ValidatePaths.loop w true (path :: rest) files = ⟨[Event.glob path], .error err⟩ := by
  simp only [ValidatePaths.loop, hp, if_false, Exec.bind_eq, Exec.pure_eq]
  simp [Exec.seq, emit, goPanic, he, hn]

/-- A turn on a non-empty pattern either panics after its glob or goes on;
which of the two depends on the pattern alone. -/
theorem ValidatePaths.loop_turn (w : World) (required : Bool) (path : String) (hp : path ≠ "") :
    (∃ e, ∀ rest files,
        ValidatePaths.loop w required (path :: rest) files = ⟨[Event.glob path], .error e⟩) ∨
      ∀ rest files, ValidatePaths.loop w required (path :: rest) files =
        ValidatePaths.next w required path rest files := by
  cases required with
  | false => exact Or.inr (fun rest files => ValidatePaths.loop_optional w path rest files hp)
  | true =>
    by_cases he : ∀ e, (w.Glob path).err = some e → e.notExist = false
    · by_cases hm : (w.Glob path).matched = none
      · exact Or.inl ⟨_, fun rest files =>
          ValidatePaths.loop_required_missing w path rest files hp he hm⟩
      · exact Or.inr (fun rest files =>
          ValidatePaths.loop_required_found w path rest files hp he hm)
    · push_neg at he
      obtain ⟨e, he1, he2⟩ := he
      exact Or.inl ⟨e, fun rest files =>
        ValidatePaths.loop_required_notExist w path rest files hp e he1 (by simpa using he2)⟩

/-! ## ValidatePaths: the whole loop -/

theorem globAll_nil (w : World) : globAll w [] = [] := rfl

theorem globAll_skip (w : World) (rest : List String) : globAll w ("" :: rest) = globAll w rest := by
  simp [globAll]

theorem globAll_cons (w : World) (path : String) (rest : List String) (hp : path ≠ "") :
    globAll w (path :: rest) = (w.Glob path).files ++ globAll w rest := by
  simp [globAll, hp]

theorem globAll_append (w : World) (ps qs : List String) :
    globAll w (ps ++ qs) = globAll w ps ++ globAll w qs := by
  simp [globAll]

theorem demoWorld_contract : GlobContract demoWorld := by
  intro p
  simp only [demoWorld]
  split_ifs <;> simp

/-- With `required` false the loop never panics. -/
theorem ValidatePaths.loop_optional_res (w : World) (paths files : List String) :
    (ValidatePaths.loop w false paths files).res = .ok (files ++ globAll w paths) := by
  induction paths generalizing files with
  | nil => simp [ValidatePaths.loop_nil, globAll_nil]
  | cons p rest ih =>
    by_cases hp : p = ""
    · subst hp
      rw [ValidatePaths.loop_skip, globAll_skip, ih]
    · rw [ValidatePaths.loop_optional w p rest files hp, globAll_cons w p rest hp]
      simp [ValidatePaths.next, ih]

/-- A loop that returns has collected the matches of the non-empty patterns. -/
theorem ValidatePaths.loop_ok (w : World) (required : Bool) (paths files out : List String)
    (h : (ValidatePaths.loop w required paths files).res = .ok out) :
    out = files ++ globAll w paths := by
  induction paths generalizing files with
  | nil =>
    simp only [ValidatePaths.loop_nil, Except.ok.injEq] at h
    simp [globAll_nil, h]
  | cons p rest ih =>
    by_cases hp : p = ""
    · subst hp
      rw [ValidatePaths.loop_skip] at h
      rw [globAll_skip]
      exact ih files h
    · rcases ValidatePaths.loop_turn w required p hp with ⟨e, he⟩ | hn
      · rw [he] at h; cases h
      · rw [hn] at h
        rw [globAll_cons w p rest hp, ← List.append_assoc]
        exact ih _ h

/-- An empty pattern anywhere in the list changes nothing, not even the
events. -/
theorem ValidatePaths.loop_skip_mid (w : World) (required : Bool) (ps qs files : List String) :
    ValidatePaths.loop w required (ps ++ "" :: qs) files =
      ValidatePaths.loop w required (ps ++ qs) files := by
  induction ps generalizing files with
  | nil => simp [ValidatePaths.loop_skip]
  | cons p rest ih =>
    by_cases hp : p = ""
    · subst hp
      simp only [List.cons_append, ValidatePaths.loop_skip]
      exact ih files
    · simp only [List.cons_append]
      rcases ValidatePaths.loop_turn w required p hp with ⟨e, he⟩ | hn
      · rw [he, he]
      · rw [hn, hn]
        simp [ValidatePaths.next, ih]

/-- Under the contract of `filepath.Glob`, a result holds no file exactly when
its slice is nil. -/
theorem GlobContract.files_nil (w : World) (hw : GlobContract w) (p : String) :
    (w.Glob p).files = [] ↔ (w.Glob p).matched = none := by
  have h := (hw p).1
  unfold GlobResult.files
  cases hm : (w.Glob p).matched with
  | none => simp
  | some l =>
    rw [hm] at h
    simp only [Option.getD_some, reduceCtorEq, iff_false]
    intro hl
    exact h (by rw [hl])

theorem firstUnmatched_skip (w : World) (rest : List String) :
    firstUnmatched w ("" :: rest) = firstUnmatched w rest := by
  simp [firstUnmatched]

theorem firstUnmatched_hit (w : World) (p : String) (rest : List String) (hp : p ≠ "")
    (h : (w.Glob p).files = []) : firstUnmatched w (p :: rest) = some p := by
  simp [firstUnmatched, hp, h]

theorem firstUnmatched_pass (w : World) (p : String) (rest : List String)
    (h : (w.Glob p).files ≠ []) : firstUnmatched w (p :: rest) = firstUnmatched w rest := by
  simp [firstUnmatched, h]

/-- With `required` true and a glob that keeps its contract, the loop panics at
the first non-empty pattern without a match, and returns the matches of all
patterns when there is none. -/
theorem ValidatePaths.loop_required_res (w : World) (hw : GlobContract w)
    (paths files : List String) :
    (ValidatePaths.loop w true paths files).res =
      match firstUnmatched w paths with
      | some p => .error (Errorf "no files found for required path: " p)
      | none => .ok (files ++ globAll w paths) := by
  induction paths generalizing files with
  | nil => simp [ValidatePaths.loop_nil, globAll_nil, firstUnmatched]
  | cons p rest ih =>
    by_cases hp : p = ""
    · subst hp
      rw [ValidatePaths.loop_skip, globAll_skip, firstUnmatched_skip, ih]
    · have he : ∀ e, (w.Glob p).err = some e → e.notExist = false := (hw p).2
      by_cases hm : (w.Glob p).matched = none
      · rw [ValidatePaths.loop_required_missing w p rest files hp he hm,
          firstUnmatched_hit w p rest hp ((GlobContract.files_nil w hw p).2 hm)]
      · have hf : (w.Glob p).files ≠ [] := fun h => hm ((GlobContract.files_nil w hw p).1 h)
        rw [ValidatePaths.loop_required_found w p rest files hp he hm,
          firstUnmatched_pass w p rest hf, globAll_cons w p rest hp, ← List.append_assoc]
        simp only [ValidatePaths.next]
        exact ih _

theorem firstUnmatched_eq_none (w : World) (paths : List String) :
    firstUnmatched w paths = none ↔ ∀ p ∈ paths, p ≠ "" → (w.Glob p).files ≠ [] := by
  simp [firstUnmatched]

theorem firstUnmatched_first (w : World) (pre post : List String) (p : String) (hp : p ≠ "")
    (h : (w.Glob p).files = []) (hpre : ∀ q ∈ pre, q ≠ "" → (w.Glob q).files ≠ []) :
    firstUnmatched w (pre ++ p :: post) = some p := by
  induction pre with
  | nil => exact firstUnmatched_hit w p post hp h
  | cons q rest ih =>
    have ih2 := ih (fun x hx => hpre x (List.mem_cons_of_mem q hx))
    by_cases hq : q = ""
    · subst hq
      simpa [firstUnmatched_skip] using ih2
    · have := hpre q (List.mem_cons_self q rest) hq
      simpa [firstUnmatched_pass w q (rest ++ p :: post) this] using ih2

/-! ## ValidatePaths: the claims -/

/-- C4: with `required` true, and `filepath.Glob` keeping its documented
contract, `ValidatePaths` panics if and only if some non-empty pattern of the
list has no match, and the panic is the error `no files found for required
path: ` followed by the first such pattern in declaration order. -/
theorem ValidatePaths_required (w : World) (hw : GlobContract w) (paths : List String) :
    ((∃ e, (ValidatePaths w true paths).res = .error e) ↔
      ∃ p ∈ paths, p ≠ "" ∧ (w.Glob p).files = []) ∧
    (∀ pre p post, paths = pre ++ p :: post → p ≠ "" → (w.Glob p).files = [] →
      (∀ q ∈ pre, q ≠ "" → (w.Glob q).files ≠ []) →
      (ValidatePaths w true paths).res =
        .error ⟨"no files found for required path: " ++ p, false⟩) := by
  have hres := ValidatePaths.loop_required_res w hw paths []
  constructor
  · constructor
    · rintro ⟨e, he⟩
      by_contra hno
      push_neg at hno
      have hnone := (firstUnmatched_eq_none w paths).2 hno
      unfold ValidatePaths at he
      rw [hres, hnone] at he
      cases he
    · rintro ⟨p, hp, hne, hf⟩
      cases hfu : firstUnmatched w paths with
      | none => exact absurd hf ((firstUnmatched_eq_none w paths).1 hfu p hp hne)
      | some q =>
        refine ⟨Errorf "no files found for required path: " q, ?_⟩
        unfold ValidatePaths
        rw [hres, hfu]
  · intro pre p post hpaths hp hf hpre
    have hfu := firstUnmatched_first w pre post p hp hf hpre
    unfold ValidatePaths
    rw [hres, hpaths, hfu]
    rfl

/-- Witness for C4: in the demo world the list `a.yaml`, empty, `missing.yaml`,
`gone.yaml` panics on `missing.yaml`. -/
theorem ValidatePaths_required_witness :
    GlobContract demoWorld ∧
    (demoWorld.Glob "missing.yaml").files = [] ∧
    (ValidatePaths demoWorld true ["a.yaml", "", "missing.yaml", "gone.yaml"]).res =
      .error ⟨"no files found for required path: missing.yaml", false⟩ :=
  ⟨demoWorld_contract, by decide,
    (ValidatePaths_required demoWorld demoWorld_contract
      ["a.yaml", "", "missing.yaml", "gone.yaml"]).2 ["a.yaml", ""] "missing.yaml" ["gone.yaml"]
      rfl (by decide) (by decide) (by decide)⟩

/-- C5: with `required` false `ValidatePaths` never panics, whatever the
patterns and whatever the glob returns; a pattern without a match contributes
nothing to the result; when no pattern has a match the result is empty. -/
theorem ValidatePaths_optional (w : World) (ps qs : List String) (p : String) :
    (∃ files, (ValidatePaths w false ps).res = .ok files) ∧
    ((w.Glob p).files = [] →
      (ValidatePaths w false (ps ++ p :: qs)).res = (ValidatePaths w false (ps ++ qs)).res) ∧
    ((∀ q ∈ ps, (w.Glob q).files = []) → (ValidatePaths w false ps).res = .ok []) := by
  refine ⟨⟨_, ValidatePaths.loop_optional_res w ps []⟩, ?_, ?_⟩
  · intro hp
    unfold ValidatePaths
    rw [ValidatePaths.loop_optional_res, ValidatePaths.loop_optional_res]
    by_cases he : p = ""
    · subst he
      simp [globAll]
    · have : globAll w (ps ++ p :: qs) = globAll w ps ++ ((w.Glob p).files ++ globAll w qs) := by
        rw [globAll_append, globAll_cons w p qs he]
      rw [this, hp, globAll_append]
      simp
  · intro hall
    unfold ValidatePaths
    rw [ValidatePaths.loop_optional_res]
    simp only [List.nil_append, globAll, Except.ok.injEq, List.flatMap_eq_nil_iff, List.mem_filter]
    intro q hq
    exact hall q hq.1

/-- Witness for C5: in the demo world `missing.yaml` matches nothing and adds
nothing between `a.yaml` and `b.yaml`; a list of patterns without a match,
one of them malformed, gives the empty result. -/
theorem ValidatePaths_optional_witness :
    (demoWorld.Glob "missing.yaml").files = [] ∧
    (ValidatePaths demoWorld false (["a.yaml"] ++ "missing.yaml" :: ["b.yaml"])).res =
      (ValidatePaths demoWorld false (["a.yaml"] ++ ["b.yaml"])).res ∧
    (∀ q ∈ ["missing.yaml", "["], (demoWorld.Glob q).files = []) ∧
    (ValidatePaths demoWorld false ["missing.yaml", "["]).res = .ok [] :=
  ⟨by decide,
    (ValidatePaths_optional demoWorld ["a.yaml"] ["b.yaml"] "missing.yaml").2.1 (by decide),
    by decide,
    (ValidatePaths_optional demoWorld ["missing.yaml", "["] [] "").2.2 (by decide)⟩

/-- C6: whenever `ValidatePaths` returns, with either flag, its result is the
concatenation over the non-empty patterns, in declaration order, of the
matches of each pattern in the order the glob gave them; an empty pattern put
anywhere in the list changes neither the outcome nor the globs made, so it is
never an error. -/
theorem ValidatePaths_result (w : World) (required : Bool) (paths : List String) :
    (∀ files, (ValidatePaths w required paths).res = .ok files →
      files = (paths.filter (fun p => p ≠ "")).flatMap (fun p => (w.Glob p).files)) ∧
    (∀ ps qs, paths = ps ++ qs →
      ValidatePaths w required (ps ++ "" :: qs) = ValidatePaths w required paths) := by
  constructor
  · intro files h
    have := ValidatePaths.loop_ok w required paths [] files h
    simpa [globAll] using this
  · intro ps qs hpaths
    unfold ValidatePaths
    rw [hpaths]
    exact ValidatePaths.loop_skip_mid w required ps qs []

/-- Witness for C6: a required list with an empty pattern in the demo world. -/
theorem ValidatePaths_result_witness :
    (ValidatePaths demoWorld true ["*.yaml", "", "a.yaml"]).res =
      .ok ["a.yaml", "b.yaml", "a.yaml"] ∧
    ["a.yaml", "b.yaml", "a.yaml"] =
      (["*.yaml", "", "a.yaml"].filter (fun p => p ≠ "")).flatMap
        (fun p => (demoWorld.Glob p).files) :=
  ⟨rfl, (ValidatePaths_result demoWorld true ["*.yaml", "", "a.yaml"]).1 _ rfl⟩

/-! ## Events of path resolution -/

theorem Exec.log_bind_mem {α β : Type} (x : Exec α) (f : α → Exec β) (ev : Event)
    (h : ev ∈ (x >>= f).log) : ev ∈ x.log ∨ ∃ a, x.res = .ok a ∧ ev ∈ (f a).log := by
  rw [Exec.bind_eq] at h
  cases hx : x.res with
  | error e =>
    rw [Exec.seq_of_error x f e hx] at h
    exact Or.inl h
  | ok a =>
    rw [Exec.seq_of_ok x f a hx] at h
    rcases List.mem_append.1 h with h1 | h2
    · exact Or.inl h1
    · exact Or.inr ⟨a, rfl, h2⟩

theorem Exec.res_bind_ok {α β : Type} (x : Exec α) (f : α → Exec β) (b : β)
    (h : (x >>= f).res = .ok b) : ∃ a, x.res = .ok a ∧ (f a).res = .ok b :=
  Exec.seq_res_ok x f b h

theorem App.renderPathTemplates.loop_no_events (w : World) (app : App) (templates results : List String) :
    (App.renderPathTemplates.loop w app templates results).log = [] := by
  induction templates generalizing results with
  | nil => rfl
  | cons ts rest ih =>
    simp only [App.renderPathTemplates.loop, Exec.bind_eq, orPanic]
    cases hp : w.Parse "app" ts with
    | error e => simp [Exec.seq, hp]
    | ok t =>
      cases hx : w.Execute t app with
      | error e => simp [Exec.seq, hp, hx]
      | ok buf => simp [Exec.seq, hp, hx, ih]

/-- Rendering path templates calls neither the glob nor the engine. -/
theorem App.renderPathTemplates_log (w : World) (app : App) (templates : List String) :
    (app.renderPathTemplates w templates).log = [] :=
  App.renderPathTemplates.loop_no_events w app templates []

theorem ValidatePaths.loop_log (w : World) (required : Bool) (paths files : List String)
    (ev : Event) (h : ev ∈ (ValidatePaths.loop w required paths files).log) :
    ∃ p, ev = Event.glob p := by
  induction paths generalizing files with
  | nil => simp [ValidatePaths.loop_nil] at h
  | cons p rest ih =>
    by_cases hp : p = ""
    · subst hp
      rw [ValidatePaths.loop_skip] at h
      exact ih files h
    · rcases ValidatePaths.loop_turn w required p hp with ⟨e, he⟩ | hn
      · rw [he] at h
        exact ⟨p, by simpa using h⟩
      · rw [hn] at h
        simp only [ValidatePaths.next, List.mem_cons] at h
        rcases h with h | h
        · exact ⟨p, h⟩
        · exact ih _ h

/-- The only events of `ValidatePaths` are globs. -/
theorem ValidatePaths_log (w : World) (required : Bool) (paths : List String) (ev : Event)
    (h : ev ∈ (ValidatePaths w required paths).log) : ∃ p, ev = Event.glob p :=
  ValidatePaths.loop_log w required paths [] ev h

/-- One slot of `SetPaths`: the templates are rendered and then validated. -/
theorem slot_log (w : World) (app : App) (required : Bool) (templates : List String)
    {β : Type} (f : List String → Exec β) (ev : Event)
    (h : ev ∈ ((app.renderPathTemplates w templates) >>= fun t =>
      (ValidatePaths w required t) >>= f).log) :
    (∃ p, ev = Event.glob p) ∨ ∃ v, ev ∈ (f v).log := by
  rcases Exec.log_bind_mem _ _ ev h with h1 | ⟨t, _, h2⟩
  · rw [App.renderPathTemplates_log] at h1
    cases h1
  · rcases Exec.log_bind_mem _ _ ev h2 with h3 | ⟨v, _, h4⟩
    · exact Or.inl (ValidatePaths_log w required t ev h3)
    · exact Or.inr ⟨v, h4⟩

/-- The only events of `SetPaths` are globs. -/
theorem App.SetPaths_log (w : World) (app : App) (cli : CLI) (ev : Event)
    (h : ev ∈ (app.SetPaths w cli).log) : ∃ p, ev = Event.glob p := by
  unfold App.SetPaths at h
  rcases slot_log w _ _ _ _ ev h with h | ⟨v1, h⟩
  · exact h
  rcases slot_log w _ _ _ _ ev h with h | ⟨v2, h⟩
  · exact h
  rcases slot_log w _ _ _ _ ev h with h | ⟨v3, h⟩
  · exact h
  rcases slot_log w _ _ _ _ ev h with h | ⟨v4, h⟩
  · exact h
  rcases slot_log w _ _ _ _ ev h with h | ⟨v5, h⟩
  · exact h
  simp [Exec.pure_eq, Exec.ret] at h

/-- What a returning `SetPaths` has done: five slots rendered and validated in
turn, each against the application as the earlier slots left it. -/
theorem App.SetPaths_ok (w : World) (app : App) (cli : CLI) (app' : App)
    (h : (app.SetPaths w cli).res = .ok app') :
    ∃ t1 v1 t2 v2 t3 v3 t4 v4 t5 v5,
      (app.renderPathTemplates w cli.Kinds.Apps.Paths.Required).res = .ok t1 ∧
      (ValidatePaths w true t1).res = .ok v1 ∧
      (App.renderPathTemplates w { app with Paths := { app.Paths with Required := v1 } }
        cli.Kinds.Apps.Paths.RequiredValues).res = .ok t2 ∧
      (ValidatePaths w true t2).res = .ok v2 ∧
      (App.renderPathTemplates w
        { app with Paths := { app.Paths with Required := v1, RequiredValues := v2 } }
        cli.Kinds.Apps.Paths.Optional).res = .ok t3 ∧
      (ValidatePaths w false t3).res = .ok v3 ∧
      (App.renderPathTemplates w
        { app with Paths := { app.Paths with Required := v1, RequiredValues := v2, Optional := v3 } }
        (cli.EnvironmentsAt app.Base.Env.Name).Paths.Required).res = .ok t4 ∧
      (ValidatePaths w true t4).res = .ok v4 ∧
      (App.renderPathTemplates w
        { app with
          Paths := { app.Paths with Required := v1, RequiredValues := v2, Optional := v3 },
          Base := { app.Base with Env := { app.Base.Env with
            Paths := { app.Base.Env.Paths with Required := v4 } } } }
        (cli.EnvironmentsAt app.Base.Env.Name).Paths.RequiredValues).res = .ok t5 ∧
      (ValidatePaths w true t5).res = .ok v5 ∧
      app' =
        { app with
          Paths := { app.Paths with Required := v1, RequiredValues := v2, Optional := v3 },
          Base := { app.Base with Env := { app.Base.Env with
            Paths := { app.Base.Env.Paths with Required := v4, RequiredValues := v5 } } } } := by
  unfold App.SetPaths at h
  obtain ⟨t1, h1, h⟩ := Exec.res_bind_ok _ _ _ h
  obtain ⟨v1, g1, h⟩ := Exec.res_bind_ok _ _ _ h
  obtain ⟨t2, h2, h⟩ := Exec.res_bind_ok _ _ _ h
  obtain ⟨v2, g2, h⟩ := Exec.res_bind_ok _ _ _ h
  obtain ⟨t3, h3, h⟩ := Exec.res_bind_ok _ _ _ h
  obtain ⟨v3, g3, h⟩ := Exec.res_bind_ok _ _ _ h
  obtain ⟨t4, h4, h⟩ := Exec.res_bind_ok _ _ _ h
  obtain ⟨v4, g4, h⟩ := Exec.res_bind_ok _ _ _ h
  obtain ⟨t5, h5, h⟩ := Exec.res_bind_ok _ _ _ h
  obtain ⟨v5, g5, h⟩ := Exec.res_bind_ok _ _ _ h
  simp only [Exec.pure_eq, Exec.ret, Except.ok.injEq] at h
  exact ⟨t1, v1, t2, v2, t3, v3, t4, v4, t5, v5, h1, g1, h2, g2, h3, g3, h4, g4, h5, g5, h.symm⟩

/-! ## NewEnv and NewApp -/

theorem NewEnv_log (name : String) (cli : CLI) : (NewEnv name cli).log = [] := by
  unfold NewEnv
  split <;> rfl

/-- The only events of `NewApp` are globs. -/
theorem NewApp_log (w : World) (kind name env : String) (cli : CLI) (ev : Event)
    (h : ev ∈ (NewApp w kind name env cli).log) : ∃ p, ev = Event.glob p := by
  unfold NewApp at h
  rcases Exec.log_bind_mem _ _ ev h with h1 | ⟨e, _, h2⟩
  · rw [NewEnv_log] at h1
    cases h1
  · rcases Exec.log_bind_mem _ _ ev h2 with h3 | ⟨a, _, h4⟩
    · exact App.SetPaths_log w _ cli ev h3
    · simp [Exec.pure_eq, Exec.ret] at h4

/-- The image of a new application: the tag is the one of the command line
when that is not empty; every other field, and the tag otherwise, is the empty
string of the composite literal. -/
theorem NewApp_image (w : World) (kind name env : String) (cli : CLI) (app : App)
    (h : (NewApp w kind name env cli).res = .ok app) :
    app.Image = { Name := "", Tag := cli.ImageTag, Repository := "", Registry := "" } := by
  unfold NewApp at h
  obtain ⟨e, _, h⟩ := Exec.res_bind_ok _ _ _ h
  obtain ⟨a, ha, h⟩ := Exec.res_bind_ok _ _ _ h
  simp only [Exec.pure_eq, Exec.ret, Except.ok.injEq] at h
  subst h
  obtain ⟨t1, v1, t2, v2, t3, v3, t4, v4, t5, v5, -, -, -, -, -, -, -, -, -, -, hA⟩ :=
    App.SetPaths_ok w _ cli a ha
  rw [hA]
  by_cases ht : cli.ImageTag = ""
  · simp [ht]
  · simp [ht]

/-- An environment name outside the aliases makes `NewEnv` panic at once. -/
theorem NewEnv_invalid (env : String) (cli : CLI)
    (h : env ∉ ["dev", "development", "int", "integration", "prd", "prod", "production"]) :
    NewEnv env cli = ⟨[], .error ⟨"invalid environment name: " ++ env, false⟩⟩ := by
  simp only [List.mem_cons, List.mem_singleton, List.not_mem_nil, or_false, not_or] at h
  obtain ⟨h1, h2, h3, h4, h5, h6, h7⟩ := h
  have hn : NormalizeEnvName env = ("", some ⟨"invalid environment name: " ++ env, false⟩) := by
    simp [NormalizeEnvName, h1, h2, h3, h4, h5, h6, h7, Errorf]
  simp [NewEnv, hn, goPanic]

/-! ## The image tag -/

theorem ytt_run_event (w : World) (app : App) (inspectValues inspectFiles : Bool) (cli : CLI)
    (opts : YttOptions) (files : List String)
    (h : Event.runWithFiles opts files ∈ (ytt w app inspectValues inspectFiles cli).log) :
    opts = { InspectFiles := inspectFiles, DataValuesInspect := inspectValues,
             KVsFromStrings := ["app.image.tag=" ++ app.Image.Tag] } := by
  rw [ytt_log] at h
  cases hf : w.NewSortedFilesFromPaths (ytt.paths app cli) with
  | error e => simp [hf] at h
  | ok fs =>
    simp only [hf, List.mem_cons, reduceCtorEq, Event.runWithFiles.injEq, List.not_mem_nil,
      or_false, false_or] at h
    exact h.1

theorem RenderCommand.valuesPass_ok (w : World) (c : RenderCommand) (cli : CLI) (app : Dytty.App)
    (h : (RenderCommand.valuesPass w c cli).res = .ok app) :
    ∃ app0, (NewApp w c.Kind c.App c.Env cli).res = .ok app0 ∧ app.Image = app0.Image := by
  unfold RenderCommand.valuesPass at h
  obtain ⟨app0, h0, h⟩ := Exec.res_bind_ok _ _ _ h
  obtain ⟨r, _, h⟩ := Exec.res_bind_ok _ _ _ h
  refine ⟨app0, h0, ?_⟩
  cases r with
  | error e => simp [goPanic] at h
  | ok data =>
    simp only at h
    obtain ⟨paths, _, h⟩ := Exec.res_bind_ok _ _ _ h
    simp only [Exec.pure_eq, Exec.ret, Except.ok.injEq] at h
    rw [← h]

theorem RenderCommand.valuesPass_run_event (w : World) (c : RenderCommand) (cli : CLI)
    (opts : YttOptions) (files : List String)
    (h : Event.runWithFiles opts files ∈ (RenderCommand.valuesPass w c cli).log) :
    opts = { InspectFiles := false, DataValuesInspect := true,
             KVsFromStrings := ["app.image.tag=" ++ cli.ImageTag] } := by
  unfold RenderCommand.valuesPass at h
  rcases Exec.log_bind_mem _ _ _ h with h1 | ⟨app0, h0, h2⟩
  · obtain ⟨p, hp⟩ := NewApp_log w _ _ _ cli _ h1
    cases hp
  · rcases Exec.log_bind_mem _ _ _ h2 with h3 | ⟨r, _, h4⟩
    · have := ytt_run_event w app0 true false cli opts files h3
      rw [this, NewApp_image w _ _ _ cli app0 h0]
    · cases r with
      | error e => simp [goPanic] at h4
      | ok data =>
        simp only at h4
        rcases Exec.log_bind_mem _ _ _ h4 with h5 | ⟨paths, _, h6⟩
        · simp [orPanic] at h5
        · simp [Exec.pure_eq, Exec.ret] at h6

theorem RenderCommand.renderPass_run_event (w : World) (app : Dytty.App) (cli : CLI)
    (opts : YttOptions) (files : List String)
    (h : Event.runWithFiles opts files ∈ (RenderCommand.renderPass w app cli).log) :
    opts = { InspectFiles := false, DataValuesInspect := false,
             KVsFromStrings := ["app.image.tag=" ++ app.Image.Tag] } := by
  unfold RenderCommand.renderPass at h
  rcases Exec.log_bind_mem _ _ _ h with h1 | ⟨v, _, h2⟩
  · obtain ⟨p, hp⟩ := ValidatePaths_log w _ _ _ h1
    cases hp
  · rcases Exec.log_bind_mem _ _ _ h2 with h3 | ⟨r, _, h4⟩
    · have h5 := ytt_run_event w _ false false cli opts files h3
      exact h5
    · cases r with
      | error e => simp [goPanic] at h4
      | ok data => simp [Exec.pure_eq, Exec.ret] at h4

/-- C7: the image tag of the command line is the tag of the application that
`NewApp` returns and of the application after the values pass of
`RenderCommand.Run`, and every run of the engine, in the values pass and in
the render pass, is given the single key/value overlay `app.image.tag=`
followed by that tag. This holds for every tag, so for every non-empty one. -/
theorem imageTag_override (w : World) (c : RenderCommand) (cli : CLI) :
    (∀ kind name env app, (NewApp w kind name env cli).res = .ok app →
      app.Image.Tag = cli.ImageTag) ∧
    (∀ app, (RenderCommand.valuesPass w c cli).res = .ok app → app.Image.Tag = cli.ImageTag) ∧
    (∀ opts files, Event.runWithFiles opts files ∈ (RenderCommand.valuesPass w c cli).log →
      opts.DataValuesInspect = true ∧
      opts.KVsFromStrings = ["app.image.tag=" ++ cli.ImageTag]) ∧
    (∀ app, (RenderCommand.valuesPass w c cli).res = .ok app →
      ∀ opts files, Event.runWithFiles opts files ∈ (RenderCommand.renderPass w app cli).log →
        opts.DataValuesInspect = false ∧
        opts.KVsFromStrings = ["app.image.tag=" ++ cli.ImageTag]) ∧
    (∀ opts files, Event.runWithFiles opts files ∈ (RenderCommand.Run w c cli).log →
      opts.KVsFromStrings = ["app.image.tag=" ++ cli.ImageTag]) := by
  have hnew : ∀ kind name env app, (NewApp w kind name env cli).res = .ok app →
      app.Image.Tag = cli.ImageTag := by
    intro kind name env app h
    rw [NewApp_image w kind name env cli app h]
  have hval : ∀ app, (RenderCommand.valuesPass w c cli).res = .ok app →
      app.Image.Tag = cli.ImageTag := by
    intro app h
    obtain ⟨app0, h0, hi⟩ := RenderCommand.valuesPass_ok w c cli app h
    rw [hi]
    exact hnew _ _ _ app0 h0
  refine ⟨hnew, hval, ?_, ?_, ?_⟩
  · intro opts files h
    rw [RenderCommand.valuesPass_run_event w c cli opts files h]
    exact ⟨rfl, rfl⟩
  · intro app happ opts files h
    rw [RenderCommand.renderPass_run_event w app cli opts files h, hval app happ]
    exact ⟨rfl, rfl⟩
  · intro opts files h
    unfold RenderCommand.Run at h
    rcases Exec.log_bind_mem _ _ _ h with h1 | ⟨app, happ, h2⟩
    · rw [RenderCommand.valuesPass_run_event w c cli opts files h1]
    · rw [RenderCommand.renderPass_run_event w app cli opts files h2, hval app happ]

/-- Witness for C7: `render apps example dev` with the tag `1.2.3` in the demo
world runs the engine twice, each time with the overlay `app.image.tag=1.2.3`. -/
theorem imageTag_override_witness :
    (RenderCommand.valuesPass demoWorld demoRender demoCLI).res = .ok demoApp ∧
    demoApp.Image.Tag = "1.2.3" ∧
    (RenderCommand.Run demoWorld demoRender demoCLI).log =
      [Event.glob "a.yaml", Event.glob "missing.yaml", Event.glob "b.yaml",
       Event.addFiles ["base/global", "b.yaml", "a.yaml"],
       Event.runWithFiles ⟨false, true, ["app.image.tag=1.2.3"]⟩ ["base/global", "b.yaml", "a.yaml"],
       Event.addFiles ["base/global", "b.yaml", "a.yaml"],
       Event.runWithFiles ⟨false, false, ["app.image.tag=1.2.3"]⟩
         ["base/global", "b.yaml", "a.yaml"]] :=
  ⟨rfl, (imageTag_override demoWorld demoRender demoCLI).2.1 demoApp rfl, rfl⟩

/-- C8, as the code has it: with no image tag on the command line, on the input
of the repository's own `TestNewApp`, `NewApp` returns in every world an
application whose image has the empty tag and the empty registry, not `0.0.0`
and `spanio.jfrog.io`. -/
theorem NewApp_default_image_empty (w : World) :
    (NewApp w "apps" "example" "development" testCLI).res =
      .ok { Base := { Name := "example", Kind := "apps", Env := { Name := "development" } },
            Image := { Name := "", Tag := "", Repository := "", Registry := "" } } ∧
    (∀ app, (NewApp w "apps" "example" "development" testCLI).res = .ok app →
      app.Image.Tag ≠ "0.0.0" ∧ app.Image.Registry ≠ "spanio.jfrog.io") := by
  have h : (NewApp w "apps" "example" "development" testCLI).res =
      .ok { Base := { Name := "example", Kind := "apps", Env := { Name := "development" } },
            Image := { Name := "", Tag := "", Repository := "", Registry := "" } } := rfl
  refine ⟨h, ?_⟩
  intro app happ
  rw [h] at happ
  cases happ
  constructor <;> decide

/-- C9: for every kind, application name and configuration, and in every
world, an environment argument outside the seven aliases makes `NewEnv` and
`NewApp` panic with the error of `NormalizeEnvName`, and the event log of the
panicking call is empty: no glob was made. -/
theorem invalid_env_panics_before_glob (w : World) (kind name env : String) (cli : CLI)
    (h : env ∉ ["dev", "development", "int", "integration", "prd", "prod", "production"]) :
    NewEnv env cli = ⟨[], .error ⟨"invalid environment name: " ++ env, false⟩⟩ ∧
    NewApp w kind name env cli = ⟨[], .error ⟨"invalid environment name: " ++ env, false⟩⟩ := by
  have henv := NewEnv_invalid env cli h
  refine ⟨henv, ?_⟩
  unfold NewApp
  rw [Exec.bind_eq, Exec.seq_of_error _ _ _ (by rw [henv]), henv]

/-- Witness for C9: the environment `invalid` of the repository's test. -/
theorem invalid_env_panics_before_glob_witness :
    "invalid" ∉ ["dev", "development", "int", "integration", "prd", "prod", "production"] ∧
    NewEnv "invalid" testCLI = ⟨[], .error ⟨"invalid environment name: invalid", false⟩⟩ ∧
    NewApp demoWorld "apps" "example" "invalid" demoCLI =
      ⟨[], .error ⟨"invalid environment name: invalid", false⟩⟩ :=
  ⟨by decide,
    (invalid_env_panics_before_glob demoWorld "apps" "example" "invalid" testCLI (by decide)).1,
    (invalid_env_panics_before_glob demoWorld "apps" "example" "invalid" demoCLI (by decide)).2⟩

/-! ## The required slots -/

/-- A required validation that returns, with a glob that keeps its contract:
every non-empty pattern had a match, and the result holds a file exactly when
the list has a non-empty pattern. -/
theorem ValidatePaths_ok_of_required (w : World) (hw : GlobContract w) (paths files : List String)
    (h : (ValidatePaths w true paths).res = .ok files) :
    (∀ p ∈ paths, p ≠ "" → (w.Glob p).files ≠ []) ∧
    (files ≠ [] ↔ ∃ p ∈ paths, p ≠ "") := by
  have hres := ValidatePaths.loop_required_res w hw paths []
  unfold ValidatePaths at h
  rw [h] at hres
  cases hfu : firstUnmatched w paths with
  | some q => rw [hfu] at hres; cases hres
  | none =>
    rw [hfu] at hres
    simp only [List.nil_append, Except.ok.injEq] at hres
    have hall := (firstUnmatched_eq_none w paths).1 hfu
    refine ⟨hall, ?_⟩
    rw [hres]
    constructor
    · intro hne
      by_contra hno
      push_neg at hno
      apply hne
      simp only [globAll, List.flatMap_eq_nil_iff, List.mem_filter]
      rintro p ⟨hp, hp2⟩
      exact absurd (hno p hp) (by simpa using hp2)
    · rintro ⟨p, hp, hp2⟩ hnil
      simp only [globAll, List.flatMap_eq_nil_iff, List.mem_filter] at hnil
      exact hall p hp hp2 (hnil p ⟨hp, by simpa using hp2⟩)

/-- C10, refuted as stated: in the demo world, under a configuration that
declares required values but no `required` pattern, `SetPaths` and `NewApp`
return, and the slots `app.Paths.Required` and `app.Env.Paths.Required` of the
result hold no file path. -/
theorem SetPaths_required_slot_empty :
    (App.SetPaths demoWorld
      { Base := { Name := "example", Kind := "apps", Env := { Name := "development" } },
        Image := { Tag := "1.2.3" } } demoCLI).res = .ok demoApp ∧
    (NewApp demoWorld "apps" "example" "dev" demoCLI).res = .ok demoApp ∧
    demoApp.Paths.Required = [] ∧
    demoApp.Base.Env.Paths.Required = [] :=
  ⟨rfl, rfl, rfl, rfl⟩

/-- C10, amended: whenever `SetPaths` returns, with a glob that keeps its
contract, every non-empty pattern rendered for the four required slots has
matched a file, and each of the slots `app.Paths.Required`,
`app.Paths.RequiredValues`, `app.Env.Paths.Required` and
`app.Env.Paths.RequiredValues` holds a file path exactly when the patterns
rendered for it include a non-empty one. -/
theorem SetPaths_required_slots (w : World) (hw : GlobContract w) (app : App) (cli : CLI)
    (app' : App) (h : (app.SetPaths w cli).res = .ok app') :
    ∃ t1 t2 t4 t5 : List String,
      (app.renderPathTemplates w cli.Kinds.Apps.Paths.Required).res = .ok t1 ∧
      (App.renderPathTemplates w
        { app with Paths := { app.Paths with Required := app'.Paths.Required } }
        cli.Kinds.Apps.Paths.RequiredValues).res = .ok t2 ∧
      (App.renderPathTemplates w { app with Paths := app'.Paths }
        (cli.EnvironmentsAt app.Base.Env.Name).Paths.Required).res = .ok t4 ∧
      (App.renderPathTemplates w
        { app with
          Paths := app'.Paths,
          Base := { app.Base with Env := { app.Base.Env with
            Paths := { app.Base.Env.Paths with Required := app'.Base.Env.Paths.Required } } } }
        (cli.EnvironmentsAt app.Base.Env.Name).Paths.RequiredValues).res = .ok t5 ∧
      (∀ p ∈ t1 ++ t2 ++ t4 ++ t5, p ≠ "" → (w.Glob p).files ≠ []) ∧
      (app'.Paths.Required ≠ [] ↔ ∃ p ∈ t1, p ≠ "") ∧
      (app'.Paths.RequiredValues ≠ [] ↔ ∃ p ∈ t2, p ≠ "") ∧
      (app'.Base.Env.Paths.Required ≠ [] ↔ ∃ p ∈ t4, p ≠ "") ∧
      (app'.Base.Env.Paths.RequiredValues ≠ [] ↔ ∃ p ∈ t5, p ≠ "") := by
  obtain ⟨t1, v1, t2, v2, t3, v3, t4, v4, t5, v5, h1, g1, h2, g2, -, -, h4, g4, h5, g5, hA⟩ :=
    App.SetPaths_ok w app cli app' h
  subst hA
  obtain ⟨a1, b1⟩ := ValidatePaths_ok_of_required w hw t1 v1 g1
  obtain ⟨a2, b2⟩ := ValidatePaths_ok_of_required w hw t2 v2 g2
  obtain ⟨a4, b4⟩ := ValidatePaths_ok_of_required w hw t4 v4 g4
  obtain ⟨a5, b5⟩ := ValidatePaths_ok_of_required w hw t5 v5 g5
  refine ⟨t1, t2, t4, t5, h1, h2, h4, h5, ?_, b1, b2, b4, b5⟩
  intro p hp
  simp only [List.mem_append] at hp
  rcases hp with ((hp | hp) | hp) | hp
  · exact a1 p hp
  · exact a2 p hp
  · exact a4 p hp
  · exact a5 p hp

/-- Witness for the amended C10: `SetPaths` on the demo application. The
patterns rendered for the two `required` slots are none, and those slots are
empty; the two `requiredValues` slots have one pattern each and hold a file. -/
theorem SetPaths_required_slots_witness :
    GlobContract demoWorld ∧
    (demoApp.SetPaths demoWorld demoCLI).res = .ok demoApp ∧
    ∃ t1 t2 t4 t5 : List String,
      (demoApp.renderPathTemplates demoWorld demoCLI.Kinds.Apps.Paths.Required).res = .ok t1 ∧
      (App.renderPathTemplates demoWorld
        { demoApp with Paths := { demoApp.Paths with Required := demoApp.Paths.Required } }
        demoCLI.Kinds.Apps.Paths.RequiredValues).res = .ok t2 ∧
      (App.renderPathTemplates demoWorld { demoApp with Paths := demoApp.Paths }
        (demoCLI.EnvironmentsAt demoApp.Base.Env.Name).Paths.Required).res = .ok t4 ∧
      (App.renderPathTemplates demoWorld
        { demoApp with
          Paths := demoApp.Paths,
          Base := { demoApp.Base with Env := { demoApp.Base.Env with
            Paths := { demoApp.Base.Env.Paths with
              Required := demoApp.Base.Env.Paths.Required } } } }
        (demoCLI.EnvironmentsAt demoApp.Base.Env.Name).Paths.RequiredValues).res = .ok t5 ∧
      (∀ p ∈ t1 ++ t2 ++ t4 ++ t5, p ≠ "" → (demoWorld.Glob p).files ≠ []) ∧
      (demoApp.Paths.Required ≠ [] ↔ ∃ p ∈ t1, p ≠ "") ∧
      (demoApp.Paths.RequiredValues ≠ [] ↔ ∃ p ∈ t2, p ≠ "") ∧
      (demoApp.Base.Env.Paths.Required ≠ [] ↔ ∃ p ∈ t4, p ≠ "") ∧
      (demoApp.Base.Env.Paths.RequiredValues ≠ [] ↔ ∃ p ∈ t5, p ≠ "") :=
  ⟨demoWorld_contract, rfl,
    SetPaths_required_slots demoWorld demoWorld_contract demoApp demoCLI demoApp rfl⟩

/-! ## Glob errors -/

/-- With `required` false every non-empty pattern is globbed, in order. -/
theorem ValidatePaths.loop_optional_events (w : World) (paths files : List String) :
    (ValidatePaths.loop w false paths files).log =
      (paths.filter (fun p => p ≠ "")).map Event.glob := by
  induction paths generalizing files with
  | nil => simp [ValidatePaths.loop_nil]
  | cons p rest ih =>
    by_cases hp : p = ""
    · subst hp
      rw [ValidatePaths.loop_skip, ih]
      simp
    · rw [ValidatePaths.loop_optional w p rest files hp]
      simp [ValidatePaths.next, ih, hp]

/-- A required loop that meets a non-empty pattern whose glob gives a nil slice
and no `os.ErrNotExist` panics, at that pattern or before it. -/
theorem ValidatePaths.loop_required_stops (w : World) (pre post files : List String) (p : String)
    (hp : p ≠ "") (he : ∀ e, (w.Glob p).err = some e → e.notExist = false)
    (hm : (w.Glob p).matched = none) :
    ∃ err, (ValidatePaths.loop w true (pre ++ p :: post) files).res = .error err := by
  induction pre generalizing files with
  | nil =>
    exact ⟨_, by rw [List.nil_append, ValidatePaths.loop_required_missing w p post files hp he hm]⟩
  | cons q rest ih =>
    by_cases hq : q = ""
    · subst hq
      rw [List.cons_append, ValidatePaths.loop_skip]
      exact ih files
    · rcases ValidatePaths.loop_turn w true q hq with ⟨e, h1⟩ | h2
      · exact ⟨e, by rw [List.cons_append, h1]⟩
      · rw [List.cons_append, h2]
        exact ih _

/-- C13: take a non-empty pattern on which the glob returns an error that is
not `os.ErrNotExist`, together with the nil slice that `filepath.Glob` returns
with every error. With `required` true `ValidatePaths` panics on every list
that holds the pattern, and when the pattern comes first the panic is
`no files found for required path: ` followed by it. With `required` false the
error is dropped: `ValidatePaths` returns the matches of the other patterns,
and every non-empty pattern after it is still globbed. -/
theorem ValidatePaths_glob_error (w : World) (pre post : List String) (p : String) (e : GoError)
    (hp : p ≠ "") (he : (w.Glob p).err = some e) (hn : e.notExist = false)
    (hm : (w.Glob p).matched = none) :
    (∃ err, (ValidatePaths w true (pre ++ p :: post)).res = .error err) ∧
    ValidatePaths w true (p :: post) =
      ⟨[Event.glob p], .error ⟨"no files found for required path: " ++ p, false⟩⟩ ∧
    (ValidatePaths w false (pre ++ p :: post)).res =
      .ok ((pre.filter (fun q => q ≠ "")).flatMap (fun q => (w.Glob q).files) ++
        (post.filter (fun q => q ≠ "")).flatMap (fun q => (w.Glob q).files)) ∧
    (ValidatePaths w false (pre ++ p :: post)).log =
      (pre.filter (fun q => q ≠ "")).map Event.glob ++ Event.glob p ::
        (post.filter (fun q => q ≠ "")).map Event.glob := by
  have he2 : ∀ e2, (w.Glob p).err = some e2 → e2.notExist = false := by
    intro e2 h2
    rw [he] at h2
    cases h2
    exact hn
  have hf : (w.Glob p).files = [] := by simp [GlobResult.files, hm]
  refine ⟨ValidatePaths.loop_required_stops w pre post [] p hp he2 hm, ?_, ?_, ?_⟩
  · unfold ValidatePaths
    rw [ValidatePaths.loop_required_missing w p post [] hp he2 hm]
    rfl
  · unfold ValidatePaths
    rw [ValidatePaths.loop_optional_res, globAll_append, globAll_cons w p post hp, hf]
    simp [globAll]
  · unfold ValidatePaths
    rw [ValidatePaths.loop_optional_events]
    simp [hp]

/-- Witness for C13: the malformed pattern `[` of the demo world, between
`a.yaml` and `b.yaml`. -/
theorem ValidatePaths_glob_error_witness :
    (demoWorld.Glob "[").err = some ⟨"syntax error in pattern", false⟩ ∧
    (demoWorld.Glob "[").matched = none ∧
    (∃ err, (ValidatePaths demoWorld true (["a.yaml"] ++ "[" :: ["b.yaml"])).res = .error err) ∧
    (ValidatePaths demoWorld false (["a.yaml"] ++ "[" :: ["b.yaml"])).res =
      .ok ["a.yaml", "b.yaml"] ∧
    (ValidatePaths demoWorld false (["a.yaml"] ++ "[" :: ["b.yaml"])).log =
      [Event.glob "a.yaml", Event.glob "[", Event.glob "b.yaml"] :=
  ⟨by decide, by decide,
    (ValidatePaths_glob_error demoWorld ["a.yaml"] ["b.yaml"] "["
      ⟨"syntax error in pattern", false⟩ (by decide) (by decide) rfl (by decide)).1,
    (ValidatePaths_glob_error demoWorld ["a.yaml"] ["b.yaml"] "["
      ⟨"syntax error in pattern", false⟩ (by decide) (by decide) rfl (by decide)).2.2.1,
    (ValidatePaths_glob_error demoWorld ["a.yaml"] ["b.yaml"] "["
      ⟨"syntax error in pattern", false⟩ (by decide) (by decide) rfl (by decide)).2.2.2⟩

/-! ## The events of the commands -/

theorem Exec.bind_of_ok {α β : Type} (x : Exec α) (f : α → Exec β) (a : α) (h : x.res = .ok a) :
    x >>= f = ⟨x.log ++ (f a).log, (f a).res⟩ := by
  rw [Exec.bind_eq, Exec.seq_of_ok x f a h]

theorem Exec.bind_of_error {α β : Type} (x : Exec α) (f : α → Exec β) (e : GoError)
    (h : x.res = .error e) : x >>= f = ⟨x.log, .error e⟩ := by
  rw [Exec.bind_eq, Exec.seq_of_error x f e h]

/-- The function `ytt` returns its error; it never panics. -/
theorem ytt_returns (w : World) (app : App) (inspectValues inspectFiles : Bool) (cli : CLI) :
    ∃ r, (ytt w app inspectValues inspectFiles cli).res = .ok r := by
  simp only [ytt, addFiles, NewOptions, Exec.bind_eq, Exec.pure_eq, Exec.seq, Exec.ret, emit]
  cases w.NewSortedFilesFromPaths (ytt.paths app cli) with
  | error e => exact ⟨_, rfl⟩
  | ok files =>
    simp only
    cases hr : w.RunWithFiles _ files with
    | error e => exact ⟨_, rfl⟩
    | ok d =>
      cases hb : w.AsBytes d with
      | error e => exact ⟨.error e, by simp [hb]⟩
      | ok bs => exact ⟨.ok bs, by simp [hb]⟩

/-- The one file list a call of `ytt` loads is `ytt.paths`. -/
theorem ytt_addFiles_event (w : World) (app : App) (inspectValues inspectFiles : Bool) (cli : CLI)
    (paths : List String) :
    Event.addFiles paths ∈ (ytt w app inspectValues inspectFiles cli).log ↔
      paths = ytt.paths app cli := by
  rw [ytt_log]
  cases w.NewSortedFilesFromPaths (ytt.paths app cli) <;> simp

/-- The events of `ParseValues` are those of its call of `ytt`. -/
theorem ParseValues_log (w : World) (app : App) (cli : CLI) :
    (ParseValues w app cli).log = (ytt w app true false cli).log := by
  obtain ⟨r, hr⟩ := ytt_returns w app true false cli
  unfold ParseValues
  rw [Exec.bind_of_ok _ _ r hr]
  cases r with
  | error e => simp [Exec.pure_eq, Exec.ret]
  | ok data =>
    cases hu : w.UnmarshalValues data with
    | error e => simp [hu, goPanic]
    | ok v => simp [hu, Exec.pure_eq, Exec.ret]

/-- The events of the values pass of `render`, once `NewApp` has returned. -/
theorem RenderCommand.valuesPass_log (w : World) (c : RenderCommand) (cli : CLI) (app0 : Dytty.App)
    (h : (NewApp w c.Kind c.App c.Env cli).res = .ok app0) :
    (RenderCommand.valuesPass w c cli).log =
      (NewApp w c.Kind c.App c.Env cli).log ++ (ytt w app0 true false cli).log := by
  obtain ⟨r, hr⟩ := ytt_returns w app0 true false cli
  unfold RenderCommand.valuesPass
  rw [Exec.bind_of_ok _ _ app0 h]
  simp only
  rw [Exec.bind_of_ok _ _ r hr]
  cases r with
  | error e => simp [goPanic]
  | ok data =>
    cases hu : w.UnmarshalPaths data app0.Paths with
    | error e => simp [hu, orPanic, Exec.bind_eq, Exec.seq]
    | ok v => simp [hu, orPanic, Exec.bind_eq, Exec.seq, Exec.pure_eq, Exec.ret]

/-- The events of `values`, once `NewApp` has returned. -/
theorem ValuesCommand.Run_log (w : World) (c : ValuesCommand) (cli : CLI) (app0 : Dytty.App)
    (h : (NewApp w c.Kind c.App c.Env cli).res = .ok app0) :
    (ValuesCommand.Run w c cli).log =
      (NewApp w c.Kind c.App c.Env cli).log ++ (ytt w app0 true false cli).log := by
  unfold ValuesCommand.Run
  rw [Exec.bind_of_ok _ _ app0 h]
  simp only
  cases hp : (ParseValues w app0 cli).res with
  | error e =>
    rw [Exec.bind_of_error _ _ e hp, ParseValues_log]
  | ok r =>
    rw [Exec.bind_of_ok _ _ r hp, ParseValues_log]
    cases r with
    | error e => simp [goPanic]
    | ok v => simp [Exec.pure_eq, Exec.ret]

/-- A new application has no template yet. -/
theorem NewApp_templates (w : World) (kind name env : String) (cli : CLI) (app : App)
    (h : (NewApp w kind name env cli).res = .ok app) : app.Paths.Templates = [] := by
  unfold NewApp at h
  obtain ⟨e, _, h⟩ := Exec.res_bind_ok _ _ _ h
  obtain ⟨a, ha, h⟩ := Exec.res_bind_ok _ _ _ h
  simp only [Exec.pure_eq, Exec.ret, Except.ok.injEq] at h
  subst h
  obtain ⟨t1, v1, t2, v2, t3, v3, t4, v4, t5, v5, -, -, -, -, -, -, -, -, -, -, hA⟩ :=
    App.SetPaths_ok w _ cli a ha
  rw [hA]
  by_cases ht : cli.ImageTag = "" <;> simp [ht]

/-! ## The file list of the values pass -/

/-- C12, refuted as stated: in the demo world, under a configuration whose
optional pattern matches `b.yaml`, the values pass of `render`, the `values`
command and `ParseValues` load the list `base/global`, `a.yaml`, `b.yaml`,
which is not the list of the global directory and the four required slots:
the optional file is in it. -/
theorem valuesPass_loads_optional :
    (NewApp demoWorld "apps" "example" "dev" optionalCLI).res = .ok optionalApp ∧
    optionalApp.Paths.Optional = ["b.yaml"] ∧
    (RenderCommand.valuesPass demoWorld demoRender optionalCLI).log =
      [Event.glob "a.yaml", Event.glob "b.yaml",
       Event.addFiles ["base/global", "a.yaml", "b.yaml"],
       Event.runWithFiles ⟨false, true, ["app.image.tag="]⟩ ["base/global", "a.yaml", "b.yaml"]] ∧
    (ValuesCommand.Run demoWorld demoValues optionalCLI).log =
      [Event.glob "a.yaml", Event.glob "b.yaml",
       Event.addFiles ["base/global", "a.yaml", "b.yaml"],
       Event.runWithFiles ⟨false, true, ["app.image.tag="]⟩ ["base/global", "a.yaml", "b.yaml"]] ∧
    (ParseValues demoWorld optionalApp optionalCLI).log =
      [Event.addFiles ["base/global", "a.yaml", "b.yaml"],
       Event.runWithFiles ⟨false, true, ["app.image.tag="]⟩ ["base/global", "a.yaml", "b.yaml"]] ∧
    ["base/global", "a.yaml", "b.yaml"] ≠
      List.flatten [[optionalCLI.BasePath ++ "/global"], optionalApp.Base.Env.Paths.RequiredValues,
        optionalApp.Paths.RequiredValues, optionalApp.Base.Env.Paths.Required,
        optionalApp.Paths.Required] :=
  ⟨rfl, rfl, rfl, rfl, rfl, by decide⟩

/-- C12, amended: the call of `ytt` made by `ParseValues` loads the same list as
every call of `ytt`, the global directory followed by the six slots, the
optional files and the templates among them. In the values pass of `render`
and in `values`, where the application comes from `NewApp`, the templates slot
is still empty, and the one list loaded is the global directory, the
environment's required values, the application's required values, the
environment's required files, the application's required files and the
application's optional files. -/
theorem valuesPass_file_list (w : World) (cli : CLI) (c : RenderCommand) (v : ValuesCommand) :
    (∀ app paths, Event.addFiles paths ∈ (ParseValues w app cli).log ↔
      paths = List.flatten [[cli.BasePath ++ "/global"], app.Base.Env.Paths.RequiredValues,
        app.Paths.RequiredValues, app.Base.Env.Paths.Required, app.Paths.Required,
        app.Paths.Optional, app.Paths.Templates]) ∧
    (∀ app0, (NewApp w c.Kind c.App c.Env cli).res = .ok app0 →
      app0.Paths.Templates = [] ∧
      ∀ paths, Event.addFiles paths ∈ (RenderCommand.valuesPass w c cli).log ↔
        paths = List.flatten [[cli.BasePath ++ "/global"], app0.Base.Env.Paths.RequiredValues,
          app0.Paths.RequiredValues, app0.Base.Env.Paths.Required, app0.Paths.Required,
          app0.Paths.Optional]) ∧
    (∀ app0, (NewApp w v.Kind v.App v.Env cli).res = .ok app0 →
      app0.Paths.Templates = [] ∧
      ∀ paths, Event.addFiles paths ∈ (ValuesCommand.Run w v cli).log ↔
        paths = List.flatten [[cli.BasePath ++ "/global"], app0.Base.Env.Paths.RequiredValues,
          app0.Paths.RequiredValues, app0.Base.Env.Paths.Required, app0.Paths.Required,
          app0.Paths.Optional]) := by
  have hpaths : ∀ app : App, ytt.paths app cli =
      List.flatten [[cli.BasePath ++ "/global"], app.Base.Env.Paths.RequiredValues,
        app.Paths.RequiredValues, app.Base.Env.Paths.Required, app.Paths.Required,
        app.Paths.Optional, app.Paths.Templates] := by
    intro app
    simp [ytt.paths, List.flatten]
  have hnew : ∀ kind name env (app0 : App), (NewApp w kind name env cli).res = .ok app0 →
      ∀ paths, Event.addFiles paths ∈
          (NewApp w kind name env cli).log ++ (ytt w app0 true false cli).log ↔
        paths = List.flatten [[cli.BasePath ++ "/global"], app0.Base.Env.Paths.RequiredValues,
          app0.Paths.RequiredValues, app0.Base.Env.Paths.Required, app0.Paths.Required,
          app0.Paths.Optional] := by
    intro kind name env app0 h0 paths
    have ht := NewApp_templates w kind name env cli app0 h0
    rw [List.mem_append, ytt_addFiles_event, hpaths app0, ht]
    constructor
    · rintro (h | h)
      · obtain ⟨p, hp⟩ := NewApp_log w kind name env cli _ h
        cases hp
      · simpa [List.flatten] using h
    · intro h
      exact Or.inr (by simpa [List.flatten] using h)
  refine ⟨?_, ?_, ?_⟩
  · intro app paths
    rw [ParseValues_log, ytt_addFiles_event, hpaths app]
  · intro app0 h0
    refine ⟨NewApp_templates w _ _ _ cli app0 h0, ?_⟩
    intro paths
    rw [RenderCommand.valuesPass_log w c cli app0 h0]
    exact hnew _ _ _ app0 h0 paths
  · intro app0 h0
    refine ⟨NewApp_templates w _ _ _ cli app0 h0, ?_⟩
    intro paths
    rw [ValuesCommand.Run_log w v cli app0 h0]
    exact hnew _ _ _ app0 h0 paths

/-- Witness for the amended C12: in the demo world, under `optionalCLI`, the
list loaded in the values pass of `render` ends with the optional file. -/
theorem valuesPass_file_list_witness :
    (NewApp demoWorld demoRender.Kind demoRender.App demoRender.Env optionalCLI).res =
      .ok optionalApp ∧
    optionalApp.Paths.Templates = [] ∧
    Event.addFiles ["base/global", "a.yaml", "b.yaml"] ∈
      (RenderCommand.valuesPass demoWorld demoRender optionalCLI).log :=
  ⟨rfl,
    ((valuesPass_file_list demoWorld optionalCLI demoRender demoValues).2.1 optionalApp rfl).1,
    (((valuesPass_file_list demoWorld optionalCLI demoRender demoValues).2.1 optionalApp rfl).2
      ["base/global", "a.yaml", "b.yaml"]).2 rfl⟩

/-! ## Failures of path resolution -/

/-- C11, refuted as stated: in the strict world the data values declare the
template `deploy.yaml`, which does not exist on disk; `render` panics on it,
and by then the engine has run once, for the values pass. -/
theorem render_template_missing_after_ytt :
    (RenderCommand.Run strictWorld demoRender demoCLI).res =
      .error ⟨"no files found for required path: base/templates/deploy.yaml", false⟩ ∧
    (RenderCommand.Run strictWorld demoRender demoCLI).log =
      [Event.glob "a.yaml", Event.glob "missing.yaml", Event.glob "b.yaml",
       Event.addFiles ["base/global", "b.yaml", "a.yaml"],
       Event.runWithFiles ⟨false, true, ["app.image.tag=1.2.3"]⟩ ["base/global", "b.yaml", "a.yaml"],
       Event.glob "base/templates/deploy.yaml"] :=
  ⟨rfl, rfl⟩

/-- C11, amended: when `NewApp` panics (on an invalid environment alias, a
required pattern without a match or a path template that fails), each of
`render`, `values` and `files` panics with the same value, and its events are
those of `NewApp`, all of them globs: the engine is not called. In `render` the
declared templates are validated after the values pass: when that validation
panics, `render` panics with the same value, it has loaded files for the
engine once, and every run of the engine it made was the one of the values
pass, not the render pass. -/
theorem resolution_failure_aborts (w : World) (cli : CLI) (kind name env : String) :
    (∀ e, (NewApp w kind name env cli).res = .error e →
      RenderCommand.Run w ⟨kind, name, env⟩ cli = ⟨(NewApp w kind name env cli).log, .error e⟩ ∧
      ValuesCommand.Run w ⟨kind, name, env⟩ cli = ⟨(NewApp w kind name env cli).log, .error e⟩ ∧
      FilesCommand.Run w ⟨kind, name, env⟩ cli = ⟨(NewApp w kind name env cli).log, .error e⟩ ∧
      ∀ ev ∈ (NewApp w kind name env cli).log, ∃ p, ev = Event.glob p) ∧
    (∀ app e, (RenderCommand.valuesPass w ⟨kind, name, env⟩ cli).res = .ok app →
      (ValidatePaths w true
        (app.Paths.Templates.map (fun t => cli.BasePath ++ "/templates/" ++ t))).res = .error e →
      (RenderCommand.Run w ⟨kind, name, env⟩ cli).res = .error e ∧
      (∃ paths, Event.addFiles paths ∈ (RenderCommand.Run w ⟨kind, name, env⟩ cli).log) ∧
      (∀ opts files,
        Event.runWithFiles opts files ∈ (RenderCommand.Run w ⟨kind, name, env⟩ cli).log →
        opts.DataValuesInspect = true)) := by
  constructor
  · intro e h
    refine ⟨?_, ?_, ?_, fun ev hev => NewApp_log w kind name env cli ev hev⟩
    · have hv : RenderCommand.valuesPass w ⟨kind, name, env⟩ cli =
          ⟨(NewApp w kind name env cli).log, .error e⟩ := by
        unfold RenderCommand.valuesPass
        exact Exec.bind_of_error _ _ e h
      unfold RenderCommand.Run
      rw [Exec.bind_of_error _ _ e (by rw [hv]), hv]
    · unfold ValuesCommand.Run
      exact Exec.bind_of_error _ _ e h
    · unfold FilesCommand.Run
      exact Exec.bind_of_error _ _ e h
  · intro app e hv ht
    have hpass : RenderCommand.renderPass w app cli =
        ⟨(ValidatePaths w true
          (app.Paths.Templates.map (fun t => cli.BasePath ++ "/templates/" ++ t))).log,
          .error e⟩ := by
      unfold RenderCommand.renderPass
      exact Exec.bind_of_error _ _ e ht
    have hrun : RenderCommand.Run w ⟨kind, name, env⟩ cli =
        ⟨(RenderCommand.valuesPass w ⟨kind, name, env⟩ cli).log ++
          (ValidatePaths w true
            (app.Paths.Templates.map (fun t => cli.BasePath ++ "/templates/" ++ t))).log,
          .error e⟩ := by
      unfold RenderCommand.Run
      rw [Exec.bind_of_ok _ _ app hv, hpass]
    obtain ⟨app0, h0, _⟩ := RenderCommand.valuesPass_ok w ⟨kind, name, env⟩ cli app hv
    refine ⟨by rw [hrun], ⟨ytt.paths app0 cli, ?_⟩, ?_⟩
    · rw [hrun, RenderCommand.valuesPass_log w ⟨kind, name, env⟩ cli app0 h0]
      simp only [List.mem_append]
      exact Or.inl (Or.inr ((ytt_addFiles_event w app0 true false cli _).2 rfl))
    · intro opts files hmem
      rw [hrun] at hmem
      rcases List.mem_append.1 hmem with h1 | h2
      · rw [RenderCommand.valuesPass_run_event w ⟨kind, name, env⟩ cli opts files h1]
      · obtain ⟨p, hp⟩ := ValidatePaths_log w _ _ _ h2
        cases hp

/-- Witness for the amended C11: `files` on a required values pattern without
a match, `values` on a malformed path template and `render` on an invalid
environment alias panic before any call of the engine; `render` on a declared
template that does not exist panics after the values pass. -/
theorem resolution_failure_aborts_witness :
    FilesCommand.Run strictWorld ⟨"apps", "example", "dev"⟩ missingCLI =
      ⟨[Event.glob "missing.yaml"],
        .error ⟨"no files found for required path: missing.yaml", false⟩⟩ ∧
    ValuesCommand.Run strictWorld ⟨"apps", "example", "dev"⟩ brokenCLI =
      ⟨[], .error ⟨"template: app:1: unclosed action", false⟩⟩ ∧
    RenderCommand.Run strictWorld ⟨"apps", "example", "invalid"⟩ demoCLI =
      ⟨[], .error ⟨"invalid environment name: invalid", false⟩⟩ ∧
    (RenderCommand.Run strictWorld ⟨"apps", "example", "dev"⟩ demoCLI).res =
      .error ⟨"no files found for required path: base/templates/deploy.yaml", false⟩ :=
  ⟨((resolution_failure_aborts strictWorld missingCLI "apps" "example" "dev").1
      ⟨"no files found for required path: missing.yaml", false⟩ rfl).2.2.1,
    ((resolution_failure_aborts strictWorld brokenCLI "apps" "example" "dev").1
      ⟨"template: app:1: unclosed action", false⟩ rfl).2.1,
    ((resolution_failure_aborts strictWorld demoCLI "apps" "example" "invalid").1
      ⟨"invalid environment name: invalid", false⟩ rfl).1,
    ((resolution_failure_aborts strictWorld demoCLI "apps" "example" "dev").2
      { demoApp with Paths := { demoApp.Paths with Templates := ["deploy.yaml"] } }
      ⟨"no files found for required path: base/templates/deploy.yaml", false⟩ rfl rfl).1⟩

end Dytty
